import Mathlib

/-!
A verification development for the yabridge cross-process plugin bridge.

The definitions below shallowly embed the serialization wrappers from
src/common/serialization/vst3/process-data.h, the deferred host-callback
scheduling from src/wine-host/bridges/clap-impls/host-proxy.cpp, the
per-proxy result caches and context-menu registry declared in
src/plugin/bridges/vst3-impls/plugin-proxy.h, and the socket layout of
src/wine-host/bridges/vst2.h.

Machine scalars are modelled as natural numbers holding the bit pattern of
the corresponding fixed-width C++ field; a serialized stream is a list of
such scalar tokens, one per primitive write performed by the bitsery
serializer.  Writing a `w`-bit field emits the value reduced modulo `2 ^ w`
(a field of that C++ type always satisfies the bound, so the reduction is
the identity on representable values).
-/

/-- Modelled from the spec: the configured maximum bus/channel
count.  The constant is defined in src/common/serialization/vst3/base.h,
which is not among the provided sources; the spec only requires it to be an
explicit, enforced maximum element count, and none of the proofs below
depend on its particular value. -/
def max_num_speakers : Nat := 16384

/-- The per-channel sample container bound `1 << 16` passed to
`s.container4b`/`s.container8b` in `YaAudioBusBuffers::serialize`. -/
def max_channel_samples : Nat := 65536

/-- A serialized message: one natural number per primitive scalar written
by the serializer (sizes, variant indices, presence flags and values). -/
abbrev Msg := List Nat

/-- Read one primitive scalar from the stream. -/
def readValue : Msg → Option (Nat × Msg)
  | [] => none
  | t :: rest => some (t, rest)

/-- Encode the elements of a list one after another, failing if any
element fails to encode. -/
def writeList (f : α → Option Msg) : List α → Option Msg
  | [] => some []
  | x :: xs =>
    match f x with
    | none => none
    | some m =>
      match writeList f xs with
      | none => none
      | some ms => some (m ++ ms)

/-- Modelled from the spec: the bounded container primitive of the
serialization library (`s.container(xs, maxSize, f)`), whose implementation
is external to the repository.  Per the spec, encoding a sequence longer
than the enforced maximum fails instead of silently truncating, and a
successful encoding is the element count followed by the element
payloads. -/
def writeContainer (maxSize : Nat) (f : α → Option Msg) (xs : List α) : Option Msg :=
  if xs.length ≤ maxSize then
    match writeList f xs with
    | none => none
    | some body => some (xs.length :: body)
  else none

/-- Read exactly `n` elements with the element reader `g`. -/
def readN (g : Msg → Option (α × Msg)) : Nat → Msg → Option (List α × Msg)
  | 0, s => some ([], s)
  | n + 1, s =>
    match g s with
    | none => none
    | some (x, s1) =>
      match readN g n s1 with
      | none => none
      | some (xs, s2) => some (x :: xs, s2)

/-- Modelled from the spec: the decoding half of the bounded container
primitive — read the element count, refuse it when it exceeds the enforced
maximum, then read that many elements. -/
def readContainer (maxSize : Nat) (g : Msg → Option (α × Msg)) : Msg → Option (List α × Msg)
  | [] => none
  | n :: rest => if n ≤ maxSize then readN g n rest else none

theorem writeList_readN (f : α → Option Msg) (g : Msg → Option (α × Msg))
    (xs : List α)
    (hx : ∀ x ∈ xs, ∃ mx, f x = some mx ∧ ∀ t, g (mx ++ t) = some (x, t)) :
    ∃ body, writeList f xs = some body ∧
      ∀ t, readN g xs.length (body ++ t) = some (xs, t) := by
  induction xs with
  | nil => exact ⟨[], rfl, fun t => rfl⟩
  | cons x xs ih =>
    obtain ⟨mx, hfx, hgx⟩ := hx x (List.mem_cons_self x xs)
    obtain ⟨body, hw, hr⟩ := ih (fun y hy => hx y (List.mem_cons_of_mem x hy))
    refine ⟨mx ++ body, ?_, ?_⟩
    · simp [writeList, hfx, hw]
    · intro t
      simp only [List.length_cons, readN, List.append_assoc, hgx, hr]

theorem writeContainer_readContainer (maxSize : Nat) (f : α → Option Msg)
    (g : Msg → Option (α × Msg)) (xs : List α)
    (hlen : xs.length ≤ maxSize)
    (hx : ∀ x ∈ xs, ∃ mx, f x = some mx ∧ ∀ t, g (mx ++ t) = some (x, t)) :
    ∃ m, writeContainer maxSize f xs = some m ∧
      ∀ t, readContainer maxSize g (m ++ t) = some (xs, t) := by
  obtain ⟨body, hw, hr⟩ := writeList_readN f g xs hx
  refine ⟨xs.length :: body, ?_, ?_⟩
  · simp [writeContainer, hlen, hw]
  · intro t
    simp [readContainer, hlen, hr]

theorem writeContainer_too_long (maxSize : Nat) (f : α → Option Msg)
    (xs : List α) (h : maxSize < xs.length) :
    writeContainer maxSize f xs = none := by
  simp [writeContainer, Nat.not_le.mpr h]

/-- The sample-width tagged union stored in `YaAudioBusBuffers::buffers`:
either a vector of single-precision channels or a vector of
double-precision channels.  Samples are modelled by the natural number
whose binary representation is the stored 32-bit (resp. 64-bit) pattern. -/
inductive BusBuffersVariant
  | sample32 (channels : List (List Nat))
  | sample64 (channels : List (List Nat))
deriving DecidableEq

/-- `YaAudioBusBuffers`: the silence bitmask copied verbatim from the host
plus the tagged per-channel sample arrays. -/
structure YaAudioBusBuffers where
  silence_flags : Nat
  buffers : BusBuffersVariant
deriving DecidableEq

/-- Encode one channel: `s.container4b(channel, 1 << 16)` resp.
`s.container8b(channel, 1 << 16)`, with `w` the scalar width in bits. -/
def encodeChannel (w : Nat) (ch : List Nat) : Option Msg :=
  writeContainer max_channel_samples (fun v => some [v % 2 ^ w]) ch

/-- Decode one channel. -/
def decodeChannel : Msg → Option (List Nat × Msg) :=
  readContainer max_channel_samples readValue

/-- `YaAudioBusBuffers::serialize`: write the 64-bit silence bitmask, then
the `StdVariant` extension (the variant index followed by the active
bounded channel container of the active variant). -/
def YaAudioBusBuffers.encode (b : YaAudioBusBuffers) : Option Msg :=
  match b.buffers with
  | .sample32 chans =>
    match writeContainer max_num_speakers (encodeChannel 32) chans with
    | none => none
    | some m => some (b.silence_flags % 2 ^ 64 :: 0 :: m)
  | .sample64 chans =>
    match writeContainer max_num_speakers (encodeChannel 64) chans with
    | none => none
    | some m => some (b.silence_flags % 2 ^ 64 :: 1 :: m)

/-- The deserialization direction of `YaAudioBusBuffers::serialize`: read
the silence bitmask, the variant index (refusing anything other than the
two declared alternatives), then the bounded channel container of the
selected variant. -/
def YaAudioBusBuffers.decode : Msg → Option (YaAudioBusBuffers × Msg)
  | sf :: idx :: rest =>
    if idx = 0 then
      match readContainer max_num_speakers decodeChannel rest with
      | none => none
      | some (chans, rest2) => some (⟨sf, .sample32 chans⟩, rest2)
    else if idx = 1 then
      match readContainer max_num_speakers decodeChannel rest with
      | none => none
      | some (chans, rest2) => some (⟨sf, .sample64 chans⟩, rest2)
    else none
  | _ => none

/-- A channel representable at width `w`: within the sample
bound and every sample pattern fits in `w` bits. -/
def ValidChannel (w : Nat) (ch : List Nat) : Prop :=
  ch.length ≤ max_channel_samples ∧ ∀ v ∈ ch, v < 2 ^ w

instance (w : Nat) (ch : List Nat) : Decidable (ValidChannel w ch) := by
  unfold ValidChannel; infer_instance

/-- A representable `YaAudioBusBuffers` value: the silence bitmask fits in
64 bits, the channel count is within the speaker bound, and every channel
is representable at the width of the variant. -/
def YaAudioBusBuffers.Valid : YaAudioBusBuffers → Prop
  | ⟨sf, .sample32 chans⟩ =>
    sf < 2 ^ 64 ∧ chans.length ≤ max_num_speakers ∧ ∀ ch ∈ chans, ValidChannel 32 ch
  | ⟨sf, .sample64 chans⟩ =>
    sf < 2 ^ 64 ∧ chans.length ≤ max_num_speakers ∧ ∀ ch ∈ chans, ValidChannel 64 ch

instance (b : YaAudioBusBuffers) : Decidable b.Valid := by
  obtain ⟨sf, ch | ch⟩ := b <;> · unfold YaAudioBusBuffers.Valid; infer_instance

theorem encodeChannel_decodeChannel (w : Nat) (ch : List Nat)
    (h : ValidChannel w ch) :
    ∃ m, encodeChannel w ch = some m ∧ ∀ t, decodeChannel (m ++ t) = some (ch, t) := by
  exact writeContainer_readContainer max_channel_samples _ readValue ch h.1
    (fun v hv => ⟨[v % 2 ^ w], rfl, by
      intro t
      have : v % 2 ^ w = v := Nat.mod_eq_of_lt (h.2 v hv)
      simp [this, readValue]⟩)

/-- C1: for every representable `YaAudioBusBuffers` value, in both the
single- and the double-precision variant and including zero-channel and
zero-sample values, decoding the encoding returns the original value (and
consumes the whole message), with the silence bitmask and every per-channel
sample array preserved. -/
theorem yaAudioBusBuffers_decode_encode (b : YaAudioBusBuffers) (h : b.Valid) :
    b.encode.bind YaAudioBusBuffers.decode = some (b, []) := by
  obtain ⟨sf, chans | chans⟩ := b
  · obtain ⟨h1, h2, h3⟩ := h
    obtain ⟨m, hw, hr⟩ := writeContainer_readContainer max_num_speakers
      (encodeChannel 32) decodeChannel chans h2
      (fun ch hch => encodeChannel_decodeChannel 32 ch (h3 ch hch))
    have hr0 := hr []
    rw [List.append_nil] at hr0
    have hmod : sf % 2 ^ 64 = sf := Nat.mod_eq_of_lt h1
    simp [YaAudioBusBuffers.encode, hw, hmod, YaAudioBusBuffers.decode, hr0]
    exact h1.trans_eq (by norm_num)
  · obtain ⟨h1, h2, h3⟩ := h
    obtain ⟨m, hw, hr⟩ := writeContainer_readContainer max_num_speakers
      (encodeChannel 64) decodeChannel chans h2
      (fun ch hch => encodeChannel_decodeChannel 64 ch (h3 ch hch))
    have hr0 := hr []
    rw [List.append_nil] at hr0
    have hmod : sf % 2 ^ 64 = sf := Nat.mod_eq_of_lt h1
    simp [YaAudioBusBuffers.encode, hw, hmod, YaAudioBusBuffers.decode, hr0]
    exact h1.trans_eq (by norm_num)

theorem yaAudioBusBuffers_decode_encode_witness :
    ((⟨3, .sample32 []⟩ : YaAudioBusBuffers).encode.bind YaAudioBusBuffers.decode
        = some (⟨3, .sample32 []⟩, [])) ∧
    ((⟨5, .sample32 [[], [1, 2, 3]]⟩ : YaAudioBusBuffers).encode.bind YaAudioBusBuffers.decode
        = some (⟨5, .sample32 [[], [1, 2, 3]]⟩, [])) ∧
    ((⟨0, .sample64 [[70000000000], []]⟩ : YaAudioBusBuffers).encode.bind YaAudioBusBuffers.decode
        = some (⟨0, .sample64 [[70000000000], []]⟩, [])) :=
  ⟨yaAudioBusBuffers_decode_encode _ (by decide),
   yaAudioBusBuffers_decode_encode _ (by decide),
   yaAudioBusBuffers_decode_encode _ (by decide)⟩

/-- `Steinberg::Vst::Chord`: key note, root note and chord mask. -/
structure Chord where
  keyNote : Nat
  rootNote : Nat
  chordMask : Nat
deriving DecidableEq

/-- `Steinberg::Vst::FrameRate`: frames per second and flags. -/
structure FrameRate where
  framesPerSecond : Nat
  flags : Nat
deriving DecidableEq

/-- `Steinberg::Vst::ProcessContext`, fields in declaration order.  Each
field holds the bit pattern of the corresponding fixed-width C++ field
(doubles are carried as their 64-bit patterns; serialization only ever
copies them). -/
structure ProcessContext where
  state : Nat
  sampleRate : Nat
  projectTimeSamples : Nat
  systemTime : Nat
  continousTimeSamples : Nat
  projectTimeMusic : Nat
  barPositionMusic : Nat
  cycleStartMusic : Nat
  cycleEndMusic : Nat
  tempo : Nat
  timeSigNumerator : Nat
  timeSigDenominator : Nat
  chord : Chord
  smpteOffsetSubframes : Nat
  frameRate : FrameRate
  samplesToNextClock : Nat
deriving DecidableEq

/-- `Steinberg::Vst::serialize(S&, ProcessContext&)` in the writing
direction: the exact sequence of primitive writes performed by the source,
including the fact that `smpteOffsetSubframes` is written twice in a row
(lines 263 and 264 of process-data.h) and `frameRate` follows only after
the second write. -/
def encodeProcessContext (c : ProcessContext) : Msg :=
  [c.state % 2 ^ 32,
   c.sampleRate % 2 ^ 64,
   c.projectTimeSamples % 2 ^ 64,
   c.systemTime % 2 ^ 64,
   c.continousTimeSamples % 2 ^ 64,
   c.projectTimeMusic % 2 ^ 64,
   c.barPositionMusic % 2 ^ 64,
   c.cycleStartMusic % 2 ^ 64,
   c.cycleEndMusic % 2 ^ 64,
   c.tempo % 2 ^ 64,
   c.timeSigNumerator % 2 ^ 32,
   c.timeSigDenominator % 2 ^ 32,
   c.chord.keyNote % 2 ^ 8,
   c.chord.rootNote % 2 ^ 8,
   c.chord.chordMask % 2 ^ 16,
   c.smpteOffsetSubframes % 2 ^ 32,
   c.smpteOffsetSubframes % 2 ^ 32,
   c.frameRate.framesPerSecond % 2 ^ 8,
   c.frameRate.flags % 2 ^ 8,
   c.samplesToNextClock % 2 ^ 32]

/-- The same field traversal in the reading direction: the two successive
reads into `smpteOffsetSubframes` mean the second token read for that field
overwrites the first, so the reconstructed field is `t16`. -/
def decodeProcessContext : Msg → Option (ProcessContext × Msg)
  | t0 :: t1 :: t2 :: t3 :: t4 :: t5 :: t6 :: t7 :: t8 :: t9 :: t10 :: t11 ::
      t12 :: t13 :: t14 :: _t15 :: t16 :: t17 :: t18 :: t19 :: rest =>
    some (⟨t0, t1, t2, t3, t4, t5, t6, t7, t8, t9, t10, t11,
           ⟨t12, t13, t14⟩, t16, ⟨t17, t18⟩, t19⟩, rest)
  | _ => none

/-- A representable `ProcessContext`: every field pattern fits its C++
field width. -/
def ProcessContext.Valid (c : ProcessContext) : Prop :=
  c.state < 2 ^ 32 ∧ c.sampleRate < 2 ^ 64 ∧ c.projectTimeSamples < 2 ^ 64 ∧
  c.systemTime < 2 ^ 64 ∧ c.continousTimeSamples < 2 ^ 64 ∧
  c.projectTimeMusic < 2 ^ 64 ∧ c.barPositionMusic < 2 ^ 64 ∧
  c.cycleStartMusic < 2 ^ 64 ∧ c.cycleEndMusic < 2 ^ 64 ∧ c.tempo < 2 ^ 64 ∧
  c.timeSigNumerator < 2 ^ 32 ∧ c.timeSigDenominator < 2 ^ 32 ∧
  c.chord.keyNote < 2 ^ 8 ∧ c.chord.rootNote < 2 ^ 8 ∧
  c.chord.chordMask < 2 ^ 16 ∧ c.smpteOffsetSubframes < 2 ^ 32 ∧
  c.frameRate.framesPerSecond < 2 ^ 8 ∧ c.frameRate.flags < 2 ^ 8 ∧
  c.samplesToNextClock < 2 ^ 32

instance (c : ProcessContext) : Decidable c.Valid := by
  unfold ProcessContext.Valid; infer_instance

/-- C9: the field-by-field `ProcessContext` encoding writes the
`smpteOffsetSubframes` field twice in succession (token positions 15 and 16
both carry it, and no distinct field stands in either place), yet because
decoding traverses the identical field sequence, decoding the encoding
still reconstructs the original value exactly and consumes the whole
message: the encoding is self-consistent but not minimal (20 tokens for 19
distinct primitive fields). -/
theorem processContext_duplicate_smpte_roundtrip (c : ProcessContext)
    (h : c.Valid) :
    (encodeProcessContext c).length = 20 ∧
    (encodeProcessContext c).get? 15 = some c.smpteOffsetSubframes ∧
    (encodeProcessContext c).get? 16 = some c.smpteOffsetSubframes ∧
    decodeProcessContext (encodeProcessContext c) = some (c, []) := by
  obtain ⟨h0, h1, h2, h3, h4, h5, h6, h7, h8, h9, h10, h11, h12, h13, h14,
    h15, h16, h17, h18⟩ := h
  have hmod : c.smpteOffsetSubframes % 2 ^ 32 = c.smpteOffsetSubframes :=
    Nat.mod_eq_of_lt h15
  refine ⟨rfl, ?_, ?_, ?_⟩
  · simp [encodeProcessContext, hmod]
    exact h15.trans_eq (by norm_num)
  · simp [encodeProcessContext, hmod]
    exact h15.trans_eq (by norm_num)
  · simp only [encodeProcessContext, decodeProcessContext,
      Nat.mod_eq_of_lt h0, Nat.mod_eq_of_lt h1, Nat.mod_eq_of_lt h2,
      Nat.mod_eq_of_lt h3, Nat.mod_eq_of_lt h4, Nat.mod_eq_of_lt h5,
      Nat.mod_eq_of_lt h6, Nat.mod_eq_of_lt h7, Nat.mod_eq_of_lt h8,
      Nat.mod_eq_of_lt h9, Nat.mod_eq_of_lt h10, Nat.mod_eq_of_lt h11,
      Nat.mod_eq_of_lt h12, Nat.mod_eq_of_lt h13, Nat.mod_eq_of_lt h14,
      Nat.mod_eq_of_lt h15, Nat.mod_eq_of_lt h16, Nat.mod_eq_of_lt h17,
      Nat.mod_eq_of_lt h18]

theorem processContext_duplicate_smpte_roundtrip_witness :
    (encodeProcessContext ⟨1, 2, 3, 4, 5, 6, 7, 8, 9, 10, 11, 12,
        ⟨60, 48, 145⟩, 13, ⟨2, 1⟩, 14⟩).length = 20 ∧
    (encodeProcessContext ⟨1, 2, 3, 4, 5, 6, 7, 8, 9, 10, 11, 12,
        ⟨60, 48, 145⟩, 13, ⟨2, 1⟩, 14⟩).get? 15 = some 13 ∧
    (encodeProcessContext ⟨1, 2, 3, 4, 5, 6, 7, 8, 9, 10, 11, 12,
        ⟨60, 48, 145⟩, 13, ⟨2, 1⟩, 14⟩).get? 16 = some 13 ∧
    decodeProcessContext (encodeProcessContext ⟨1, 2, 3, 4, 5, 6, 7, 8, 9,
        10, 11, 12, ⟨60, 48, 145⟩, 13, ⟨2, 1⟩, 14⟩)
      = some (⟨1, 2, 3, 4, 5, 6, 7, 8, 9, 10, 11, 12,
        ⟨60, 48, 145⟩, 13, ⟨2, 1⟩, 14⟩, []) :=
  processContext_duplicate_smpte_roundtrip _ (by decide)

/-- Modelled from the spec: `YaParameterChanges` (parameter-changes.h is
not among the provided sources).  The claims below never inspect its
internals, so the incoming parameter-change batch is carried as an opaque
token payload whose encoding is its length-prefixed contents. -/
def encodeParameterChanges (p : List Nat) : Msg := p.length :: p

/-- Modelled from the spec: `YaEventList` (event-list.h is not among the
provided sources), carried the same opaque way. -/
def encodeEventList (e : List Nat) : Msg := e.length :: e

/-- Modelled from the spec: the `StdOptional` extension — a presence flag
followed by the payload when present; absence is just the flag. -/
def writeOptional (f : α → Option Msg) : Option α → Option Msg
  | none => some [0]
  | some x =>
    match f x with
    | none => none
    | some m => some (1 :: m)

/-- `YaProcessData`: the serializable process-call payload.  Inputs are
full `YaAudioBusBuffers`; for the outputs only the per-bus channel counts
are carried, the buffers themselves being reconstructed remotely. -/
structure YaProcessData where
  process_mode : Nat
  symbolic_sample_size : Nat
  num_samples : Nat
  inputs : List YaAudioBusBuffers
  outputs_num_channels : List Nat
  input_parameter_changes : List Nat
  input_events : Option (List Nat)
  process_context : Option ProcessContext
deriving DecidableEq

/-- `YaProcessData::serialize`: mode, sample-size tag and sample count as
32-bit values, the bounded input-bus container, the bounded output channel
count container, the parameter-change object, then the two optionals. -/
def YaProcessData.encode (d : YaProcessData) : Option Msg :=
  match writeContainer max_num_speakers YaAudioBusBuffers.encode d.inputs with
  | none => none
  | some mi =>
    match writeContainer max_num_speakers (fun c => some [c % 2 ^ 32])
        d.outputs_num_channels with
    | none => none
    | some mo =>
      match writeOptional (fun e => some (encodeEventList e)) d.input_events with
      | none => none
      | some me =>
        match writeOptional (fun c => some (encodeProcessContext c))
            d.process_context with
        | none => none
        | some mc =>
          some ([d.process_mode % 2 ^ 32, d.symbolic_sample_size % 2 ^ 32,
                 d.num_samples % 2 ^ 32] ++ mi ++ mo ++
                encodeParameterChanges d.input_parameter_changes ++ me ++ mc)

/-- `Steinberg::Vst::SymbolicSampleSizes`: 32-bit samples. -/
def kSample32 : Nat := 0

/-- `Steinberg::Vst::SymbolicSampleSizes`: 64-bit samples. -/
def kSample64 : Nat := 1

/-- Modelled from the spec: the zero-initializing
`YaAudioBusBuffers(int32 sample_size, size_t num_channels, size_t
num_samples)` constructor (its body lives in process-data.cpp, which is not
among the provided sources).  Per its declaration comment it creates a new,
zero-initialized audio bus buffers object with `num_channels` channels of
`num_samples` samples each, in the variant selected by `sample_size`. -/
def YaAudioBusBuffers.zeroInit (sample_size num_channels num_samples : Nat) :
    YaAudioBusBuffers :=
  { silence_flags := 0
    buffers :=
      if sample_size = kSample64 then
        .sample64 (List.replicate num_channels (List.replicate num_samples 0))
      else
        .sample32 (List.replicate num_channels (List.replicate num_samples 0)) }

/-- `YaProcessDataResponse`: the output half sent back after a process
call. -/
structure YaProcessDataResponse where
  outputs : List YaAudioBusBuffers
  output_parameter_changes : Option (List Nat)
  output_events : Option (List Nat)
deriving DecidableEq

/-- Modelled from the spec: the output-buffer reconstruction performed by
`YaProcessData::get()` (process-data.cpp is not among the provided
sources).  Per the field documentation of `outputs_num_channels`, one
zero-initialized bus is created per declared output channel count, from
that count, the shared `symbolic_sample_size` tag and `num_samples`. -/
def YaProcessData.reconstructOutputs (d : YaProcessData) : List YaAudioBusBuffers :=
  d.outputs_num_channels.map
    (fun c => YaAudioBusBuffers.zeroInit d.symbolic_sample_size c d.num_samples)

/-- Modelled from the spec: `YaProcessData::move_outputs_to_response()` —
move the reconstructed output buses into a `YaProcessDataResponse` so only
the output half is round-tripped back to the host. -/
def YaProcessData.move_outputs_to_response (d : YaProcessData) : YaProcessDataResponse :=
  { outputs := d.reconstructOutputs
    output_parameter_changes := none
    output_events := none }

/-- The number of channels of a bus and the length of each channel array,
irrespective of the sample-width variant. -/
def YaAudioBusBuffers.shape : YaAudioBusBuffers → Nat × List Nat
  | ⟨_, .sample32 chans⟩ => (chans.length, chans.map List.length)
  | ⟨_, .sample64 chans⟩ => (chans.length, chans.map List.length)

theorem zeroInit_shape (sz c n : Nat) :
    (YaAudioBusBuffers.zeroInit sz c n).shape = (c, List.replicate c n) := by
  unfold YaAudioBusBuffers.zeroInit YaAudioBusBuffers.shape
  by_cases h : sz = kSample64 <;>
    simp [h, List.map_replicate]

/-- C2: for every `YaProcessData` payload, the `YaProcessDataResponse`
reconstructed via `get()` and `move_outputs_to_response()` contains exactly
one output bus per declared output channel count, in order; the i-th bus
has exactly the i-th declared channel count and every one of its channel
arrays has length `num_samples`. -/
theorem yaProcessData_response_shape (d : YaProcessData) :
    d.move_outputs_to_response.outputs.length = d.outputs_num_channels.length ∧
    d.move_outputs_to_response.outputs.map YaAudioBusBuffers.shape
      = d.outputs_num_channels.map (fun c => (c, List.replicate c d.num_samples)) := by
  constructor
  · simp [YaProcessData.move_outputs_to_response, YaProcessData.reconstructOutputs]
  · simp only [YaProcessData.move_outputs_to_response,
      YaProcessData.reconstructOutputs, List.map_map]
    exact List.map_congr_left (fun c _ => zeroInit_shape d.symbolic_sample_size c d.num_samples)

/-- C6: every bounded sequence in the codec is encoded against an explicit
maximum element count, and exceeding it makes the encode fail outright —
no message at all is produced (so nothing partial or truncated can be
sent): this holds for the channel list of a bus in either sample-width
variant, for the sample array of a single channel, and for the input-bus and
output-channel-count sequences of a process payload. -/
theorem encode_enforces_sequence_bounds :
    (∀ sf chans, max_num_speakers < chans.length →
      YaAudioBusBuffers.encode ⟨sf, .sample32 chans⟩ = none ∧
      YaAudioBusBuffers.encode ⟨sf, .sample64 chans⟩ = none) ∧
    (∀ w ch, max_channel_samples < ch.length → encodeChannel w ch = none) ∧
    (∀ d : YaProcessData,
      max_num_speakers < d.inputs.length ∨
        max_num_speakers < d.outputs_num_channels.length →
      YaProcessData.encode d = none) := by
  refine ⟨?_, ?_, ?_⟩
  · intro sf chans h
    constructor <;>
      simp [YaAudioBusBuffers.encode, writeContainer_too_long _ _ _ h]
  · intro w ch h
    exact writeContainer_too_long _ _ _ h
  · intro d h
    rcases h with h | h
    · simp [YaProcessData.encode, writeContainer_too_long _ _ _ h]
    · cases hmi : writeContainer max_num_speakers YaAudioBusBuffers.encode d.inputs with
      | none => simp [YaProcessData.encode, hmi]
      | some mi =>
        simp [YaProcessData.encode, hmi, writeContainer_too_long _ _ _ h]

theorem encode_enforces_sequence_bounds_witness :
    YaAudioBusBuffers.encode ⟨0, .sample32 (List.replicate 16385 [])⟩ = none ∧
    encodeChannel 32 (List.replicate 65537 0) = none ∧
    YaProcessData.encode ⟨0, 0, 0, [], List.replicate 16385 0, [], none, none⟩ = none :=
  ⟨(encode_enforces_sequence_bounds.1 0 _
      (by norm_num [max_num_speakers])).1,
   encode_enforces_sequence_bounds.2.1 32 _
      (by norm_num [max_channel_samples]),
   encode_enforces_sequence_bounds.2.2 _
      (Or.inr (by norm_num [max_num_speakers]))⟩

/-- The deferred host-callback state of one `clap_host_proxy`:
`has_pending_host_callbacks` is the atomic flag guarded by
`compare_exchange_strong` in `host_request_callback`, `queued` counts the
units of work scheduled on the main-thread run loop that have not started
yet, and `running` counts task bodies that have started (cleared the flag)
but whose `on_main_thread` call has not returned. -/
structure HostProxyState where
  has_pending_host_callbacks : Bool
  queued : Nat
  running : Nat
deriving DecidableEq

/-- The three observable events of `host_request_callback` and its
scheduled task: a host-callback request arriving, a queued task body
starting (its first statement stores `false` into the flag, before calling
`on_main_thread`), and a task body finishing. -/
inductive HostProxyEvent
  | request
  | taskStart
  | taskFinish
deriving DecidableEq

/-- One step of `clap_host_proxy::host_request_callback` and of the task it
schedules.  A request only schedules a task when the compare-exchange flips
the flag from `false` to `true`; otherwise it is dropped.  A starting task
clears the flag first, then runs the callback. -/
def hostProxyStep (s : HostProxyState) : HostProxyEvent → HostProxyState
  | .request =>
    if s.has_pending_host_callbacks then s
    else { s with has_pending_host_callbacks := true, queued := s.queued + 1 }
  | .taskStart =>
    if s.queued = 0 then s
    else { has_pending_host_callbacks := false, queued := s.queued - 1,
           running := s.running + 1 }
  | .taskFinish =>
    if s.running = 0 then s
    else { s with running := s.running - 1 }

/-- Run a trace of events from a state. -/
def hostProxyRun (s : HostProxyState) (tr : List HostProxyEvent) : HostProxyState :=
  tr.foldl hostProxyStep s

/-- The state of a freshly constructed proxy: no pending flag, nothing
queued, nothing running. -/
def hostProxyInit : HostProxyState := ⟨false, 0, 0⟩

/-- The flag tracks exactly the queued-but-not-started work. -/
def HostProxyState.Inv (s : HostProxyState) : Prop :=
  s.queued = if s.has_pending_host_callbacks then 1 else 0

theorem hostProxyStep_inv (s : HostProxyState) (e : HostProxyEvent)
    (h : s.Inv) : (hostProxyStep s e).Inv := by
  obtain ⟨p, q, r⟩ := s
  cases e <;> cases p <;>
    simp_all [HostProxyState.Inv, hostProxyStep] <;>
    split <;> simp_all

theorem hostProxyRun_inv (tr : List HostProxyEvent) :
    (hostProxyRun hostProxyInit tr).Inv := by
  suffices h : ∀ s, s.Inv → ∀ tr, (hostProxyRun s tr).Inv by
    exact h hostProxyInit rfl tr
  intro s hs tr
  induction tr generalizing s with
  | nil => exact hs
  | cons e tr ih => exact ih _ (hostProxyStep_inv s e hs)

/-- C3: per remote object at most one deferred host-callback unit of work
is pending at a time: a second `clap_host::request_callback` arriving
before the queued work of the first request has run is a no-op on the proxy
state (dropped, not double-queued); from the idle state two rapid requests
queue exactly one unit of work; and along every event trace from the
initial state the number of queued-but-not-started units never exceeds
one. -/
theorem hostProxy_single_pending_callback :
    (∀ s : HostProxyState,
      hostProxyStep (hostProxyStep s .request) .request = hostProxyStep s .request) ∧
    (∀ s : HostProxyState,
      (hostProxyStep (hostProxyStep s .request) .request).queued
        = if s.has_pending_host_callbacks then s.queued else s.queued + 1) ∧
    hostProxyRun hostProxyInit [.request, .request] = ⟨true, 1, 0⟩ ∧
    (∀ tr : List HostProxyEvent, (hostProxyRun hostProxyInit tr).queued ≤ 1) := by
  refine ⟨?_, ?_, rfl, ?_⟩
  · intro s
    obtain ⟨p, q, r⟩ := s
    cases p <;> simp [hostProxyStep]
  · intro s
    obtain ⟨p, q, r⟩ := s
    cases p <;> simp [hostProxyStep]
  · intro tr
    have h := hostProxyRun_inv tr
    rw [HostProxyState.Inv] at h
    rw [h]
    split <;> simp

/-- C10: the pending flag is stored back to `false` at the start of the
queued task body, before `on_main_thread` executes; consequently a request
arriving while the previous callback is still executing is accepted and
schedules a new unit of work — one running and one queued unit then
coexist — while the number of queued-but-not-started units still never
exceeds one on any trace from the initial state. -/
theorem hostProxy_flag_cleared_before_callback :
    hostProxyRun hostProxyInit [.request, .taskStart] = ⟨false, 0, 1⟩ ∧
    hostProxyRun hostProxyInit [.request, .taskStart, .request] = ⟨true, 1, 1⟩ ∧
    (∀ r : Nat, hostProxyStep ⟨false, 0, r⟩ .request = ⟨true, 1, r⟩) ∧
    (∀ tr : List HostProxyEvent, (hostProxyRun hostProxyInit tr).queued ≤ 1) := by
  refine ⟨rfl, rfl, ?_, ?_⟩
  · intro r
    simp [hostProxyStep]
  · intro tr
    have h := hostProxyRun_inv tr
    rw [HostProxyState.Inv] at h
    rw [h]
    split <;> simp

/-- Association-list lookup used to model the `std::map` /
`std::unordered_map` members of the proxy caches. -/
def alookup [DecidableEq κ] : List (κ × α) → κ → Option α
  | [], _ => none
  | (k, v) :: rest, q => if q = k then some v else alookup rest q

/-- `Vst3PluginProxyImpl::BusInfoCache`: memoized `getBusCount` results
keyed by media type and bus direction, and memoized `getBusInfo` results
keyed by media type, bus direction and bus index.  Keys and the `BusInfo`
payload are carried abstractly as naturals; results of `getBusCount` as
integers (`int32`). -/
structure BusInfoCache where
  bus_count : List ((Nat × Nat) × Int)
  bus_info : List ((Nat × Nat × Nat) × Nat)
deriving DecidableEq

/-- The caching context of one plugin proxy: `processing_bus_cache` is the
`std::optional<BusInfoCache>` member (engaged exactly while audio
processing is active) together with a counter of proxied remote calls,
used to observe whether a call produced a remote round trip. -/
structure BusCacheCtx where
  processing_bus_cache : Option BusInfoCache
  remote_calls : Nat
deriving DecidableEq

/-- Modelled from the spec: `Vst3PluginProxyImpl::clear_bus_cache()`
(plugin-proxy.cpp is not among the provided sources) — disengage the
optional, dropping all cached bus counts and bus infos. -/
def clear_bus_cache (st : BusCacheCtx) : BusCacheCtx :=
  { st with processing_bus_cache := none }

/-- Modelled from the spec: the processing lifecycle signals.  The
"processing started" signal (`IAudioProcessor::setProcessing(true)`)
engages an empty cache; the "processing stopped" signal clears it
immediately and unconditionally. -/
def setProcessing (state : Bool) (st : BusCacheCtx) : BusCacheCtx :=
  if state then { st with processing_bus_cache := some ⟨[], []⟩ }
  else clear_bus_cache st

/-- Modelled from the spec: the caching wrapper of
`Vst3PluginProxyImpl::getBusCount` (plugin-proxy.cpp is not among the
provided sources).  `remote` is the proxied remote call.  While the cache
is engaged a hit answers from the cache with no remote call and a miss
performs the remote call and populates the entry; while it is disengaged
every call is forwarded remotely and nothing is stored. -/
def getBusCount (remote : Nat × Nat → Int) (st : BusCacheCtx) (k : Nat × Nat) :
    Int × BusCacheCtx :=
  match st.processing_bus_cache with
  | none => (remote k, { st with remote_calls := st.remote_calls + 1 })
  | some c =>
    match alookup c.bus_count k with
    | some v => (v, st)
    | none =>
      (remote k,
       ⟨some { c with bus_count := (k, remote k) :: c.bus_count },
        st.remote_calls + 1⟩)

/-- Modelled from the spec: the caching wrapper of
`Vst3PluginProxyImpl::getBusInfo`, same shape as `getBusCount` with the
three-component key. -/
def getBusInfo (remote : Nat × Nat × Nat → Nat) (st : BusCacheCtx)
    (k : Nat × Nat × Nat) : Nat × BusCacheCtx :=
  match st.processing_bus_cache with
  | none => (remote k, { st with remote_calls := st.remote_calls + 1 })
  | some c =>
    match alookup c.bus_info k with
    | some v => (v, st)
    | none =>
      (remote k,
       ⟨some { c with bus_info := (k, remote k) :: c.bus_info },
        st.remote_calls + 1⟩)

/-- C4: the structural bus cache is populated and consulted only while
audio processing is active — while disengaged every `getBusCount` and
`getBusInfo` call goes remotely and stores nothing; the "processing
started" signal engages an empty cache and the "processing stopped" signal
invalidates it immediately and unconditionally; and while the cache is
valid, a second call with arguments identical to a previous one returns
the previously cached result without issuing a new remote proxied call
(the remote-call counter does not move and the state is unchanged). -/
theorem processing_bus_cache_lifecycle :
    (∀ st : BusCacheCtx, (setProcessing false st).processing_bus_cache = none) ∧
    (∀ st : BusCacheCtx,
      (setProcessing true st).processing_bus_cache = some ⟨[], []⟩) ∧
    (∀ remote n k, getBusCount remote ⟨none, n⟩ k = (remote k, ⟨none, n + 1⟩)) ∧
    (∀ remote n k, getBusInfo remote ⟨none, n⟩ k = (remote k, ⟨none, n + 1⟩)) ∧
    (∀ remote c n k,
      (getBusCount remote (getBusCount remote ⟨some c, n⟩ k).2 k).1
          = (getBusCount remote ⟨some c, n⟩ k).1 ∧
      (getBusCount remote (getBusCount remote ⟨some c, n⟩ k).2 k).2
          = (getBusCount remote ⟨some c, n⟩ k).2) ∧
    (∀ remote c n k,
      (getBusInfo remote (getBusInfo remote ⟨some c, n⟩ k).2 k).1
          = (getBusInfo remote ⟨some c, n⟩ k).1 ∧
      (getBusInfo remote (getBusInfo remote ⟨some c, n⟩ k).2 k).2
          = (getBusInfo remote ⟨some c, n⟩ k).2) := by
  refine ⟨fun st => rfl, fun st => rfl, fun remote n k => rfl,
    fun remote n k => rfl, ?_, ?_⟩
  · intro remote c n k
    cases hl : alookup c.bus_count k with
    | some v => simp [getBusCount, hl]
    | none => simp [getBusCount, hl, alookup]
  · intro remote c n k
    cases hl : alookup c.bus_info k with
    | some v => simp [getBusInfo, hl]
    | none => simp [getBusInfo, hl, alookup]

/-- `Vst3PluginProxyImpl::FunctionResultCache`: memoized
`canProcessSampleSize` results keyed by the symbolic sample size, the
memoized parameter count, and memoized per-index parameter info (the
`ParameterInfo` payload carried abstractly as a natural). -/
structure FunctionResultCache where
  can_process_sample_size : List (Nat × Int)
  parameter_count : Option Int
  parameter_info : List (Nat × Nat)
deriving DecidableEq

/-- The parameter/identity caching context of one plugin proxy, with the
proxied remote-call counter. -/
structure FnCacheCtx where
  function_result_cache : FunctionResultCache
  remote_calls : Nat
deriving DecidableEq

/-- Modelled from the spec: `Vst3PluginProxyImpl::clear_caches()`
(plugin-proxy.cpp is not among the provided sources) — on the "component
restarted" notification the whole cache group is dropped in one step. -/
def clear_caches (st : FnCacheCtx) : FnCacheCtx :=
  { st with function_result_cache := ⟨[], none, []⟩ }

/-- Modelled from the spec: the caching wrapper of
`Vst3PluginProxyImpl::canProcessSampleSize` — a hit answers from the
cache, a miss performs the remote call and populates the entry. -/
def canProcessSampleSize (remote : Nat → Int) (st : FnCacheCtx) (sz : Nat) :
    Int × FnCacheCtx :=
  match alookup st.function_result_cache.can_process_sample_size sz with
  | some v => (v, st)
  | none =>
    (remote sz,
     ⟨{ st.function_result_cache with
        can_process_sample_size :=
          (sz, remote sz) :: st.function_result_cache.can_process_sample_size },
      st.remote_calls + 1⟩)

/-- Modelled from the spec: the caching wrapper of
`Vst3PluginProxyImpl::getParameterCount`. -/
def getParameterCount (remote : Int) (st : FnCacheCtx) : Int × FnCacheCtx :=
  match st.function_result_cache.parameter_count with
  | some v => (v, st)
  | none =>
    (remote,
     ⟨{ st.function_result_cache with parameter_count := some remote },
      st.remote_calls + 1⟩)

/-- Modelled from the spec: the caching wrapper of
`Vst3PluginProxyImpl::getParameterInfo`. -/
def getParameterInfo (remote : Nat → Nat) (st : FnCacheCtx) (idx : Nat) :
    Nat × FnCacheCtx :=
  match alookup st.function_result_cache.parameter_info idx with
  | some v => (v, st)
  | none =>
    (remote idx,
     ⟨{ st.function_result_cache with
        parameter_info := (idx, remote idx) :: st.function_result_cache.parameter_info },
      st.remote_calls + 1⟩)

/-- C5: a hit in the parameter/identity cache answers without touching the
remote side, so entries stay valid until the "component restarted"
notification; on that notification `clear_caches` drops the entire group
atomically — in the resulting state every previously cached key of every
sub-cache looks up to nothing; and on the next real call after the drop
each entry repopulates correctly with the remote result. -/
theorem function_result_cache_restart (st : FnCacheCtx) (sz idx : Nat)
    (v : Int) (w : Nat) (pc : Int)
    (remoteCps : Nat → Int) (remotePc : Int) (remotePi : Nat → Nat)
    (hsz : alookup st.function_result_cache.can_process_sample_size sz = some v)
    (hpc : st.function_result_cache.parameter_count = some pc)
    (hidx : alookup st.function_result_cache.parameter_info idx = some w) :
    canProcessSampleSize remoteCps st sz = (v, st) ∧
    getParameterCount remotePc st = (pc, st) ∧
    getParameterInfo remotePi st idx = (w, st) ∧
    (clear_caches st).function_result_cache = ⟨[], none, []⟩ ∧
    alookup (clear_caches st).function_result_cache.can_process_sample_size sz
      = none ∧
    (clear_caches st).function_result_cache.parameter_count = none ∧
    alookup (clear_caches st).function_result_cache.parameter_info idx = none ∧
    canProcessSampleSize remoteCps (clear_caches st) sz
      = (remoteCps sz,
         ⟨⟨[(sz, remoteCps sz)], none, []⟩, st.remote_calls + 1⟩) ∧
    getParameterCount remotePc (clear_caches st)
      = (remotePc, ⟨⟨[], some remotePc, []⟩, st.remote_calls + 1⟩) ∧
    getParameterInfo remotePi (clear_caches st) idx
      = (remotePi idx,
         ⟨⟨[], none, [(idx, remotePi idx)]⟩, st.remote_calls + 1⟩) := by
  refine ⟨?_, ?_, ?_, rfl, rfl, rfl, rfl, ?_, ?_, ?_⟩
  · simp [canProcessSampleSize, hsz]
  · simp [getParameterCount, hpc]
  · simp [getParameterInfo, hidx]
  · simp [canProcessSampleSize, clear_caches, alookup]
  · simp [getParameterCount, clear_caches]
  · simp [getParameterInfo, clear_caches, alookup]

theorem function_result_cache_restart_witness :
    canProcessSampleSize (fun _ => 2) ⟨⟨[(32, 1)], some 7, [(0, 9)]⟩, 3⟩ 32
      = (1, ⟨⟨[(32, 1)], some 7, [(0, 9)]⟩, 3⟩) ∧
    getParameterCount 5 ⟨⟨[(32, 1)], some 7, [(0, 9)]⟩, 3⟩
      = (7, ⟨⟨[(32, 1)], some 7, [(0, 9)]⟩, 3⟩) ∧
    getParameterInfo (fun n => n + 10) ⟨⟨[(32, 1)], some 7, [(0, 9)]⟩, 3⟩ 0
      = (9, ⟨⟨[(32, 1)], some 7, [(0, 9)]⟩, 3⟩) ∧
    (clear_caches ⟨⟨[(32, 1)], some 7, [(0, 9)]⟩, 3⟩).function_result_cache
      = ⟨[], none, []⟩ ∧
    alookup (clear_caches
        ⟨⟨[(32, 1)], some 7, [(0, 9)]⟩, 3⟩).function_result_cache.can_process_sample_size
        32 = none ∧
    (clear_caches
        ⟨⟨[(32, 1)], some 7, [(0, 9)]⟩, 3⟩).function_result_cache.parameter_count
      = none ∧
    alookup (clear_caches
        ⟨⟨[(32, 1)], some 7, [(0, 9)]⟩, 3⟩).function_result_cache.parameter_info
        0 = none ∧
    canProcessSampleSize (fun _ => 2) (clear_caches ⟨⟨[(32, 1)], some 7, [(0, 9)]⟩, 3⟩) 32
      = (2, ⟨⟨[(32, 2)], none, []⟩, 4⟩) ∧
    getParameterCount 5 (clear_caches ⟨⟨[(32, 1)], some 7, [(0, 9)]⟩, 3⟩)
      = (5, ⟨⟨[], some 5, []⟩, 4⟩) ∧
    getParameterInfo (fun n => n + 10) (clear_caches ⟨⟨[(32, 1)], some 7, [(0, 9)]⟩, 3⟩) 0
      = (10, ⟨⟨[], none, [(0, 10)]⟩, 4⟩) :=
  function_result_cache_restart ⟨⟨[(32, 1)], some 7, [(0, 9)]⟩, 3⟩ 32 0 1 9 7
    (fun _ => 2) 5 (fun n => n + 10) (by decide) (by decide) (by decide)

/-- `Vst3PluginProxyImpl::ContextMenu`: the host-returned menu object (its
remote identity carried as a natural) together with all targets created
against it, stored per item tag so the whole group can be dropped
together. -/
structure ContextMenu where
  menu : Nat
  targets : List (Nat × Nat)
deriving DecidableEq

/-- The context-menu registry of one plugin proxy: the `context_menus` map
keyed by the generated identifier, and the `current_context_menu_id`
counter used to assign unique identifiers. -/
structure MenuRegistry where
  context_menus : List (Nat × ContextMenu)
  current_context_menu_id : Nat
deriving DecidableEq

/-- Every registered identifier was issued by the counter. -/
def MenuRegistryWF (st : MenuRegistry) : Prop :=
  ∀ p ∈ st.context_menus, p.1 < st.current_context_menu_id

instance (st : MenuRegistry) : Decidable (MenuRegistryWF st) := by
  unfold MenuRegistryWF; infer_instance

/-- Modelled from the spec:
`Vst3PluginProxyImpl::register_context_menu()` (plugin-proxy.cpp is not
among the provided sources) — store the menu under a fresh identifier
drawn from the counter and return that identifier. -/
def register_context_menu (st : MenuRegistry) (menu : Nat) : Nat × MenuRegistry :=
  (st.current_context_menu_id,
   ⟨(st.current_context_menu_id, ⟨menu, []⟩) :: st.context_menus,
    st.current_context_menu_id + 1⟩)

/-- The remote objects dropped when a registry entry is erased: the menu
returned by the host and every dependent target, all at once. -/
def releasedObjects (cm : ContextMenu) : List Nat :=
  cm.menu :: cm.targets.map Prod.snd

/-- Modelled from the spec:
`Vst3PluginProxyImpl::unregister_context_menu()` (plugin-proxy.cpp is not
among the provided sources) — erase the entry, which releases the menu and
all of its targets in the same single step, and report whether an entry
was actually erased. -/
def unregister_context_menu (st : MenuRegistry) (id : Nat) :
    Bool × MenuRegistry × List Nat :=
  match alookup st.context_menus id with
  | none => (false, st, [])
  | some cm =>
    (true,
     ⟨st.context_menus.filter (fun p => p.1 != id), st.current_context_menu_id⟩,
     releasedObjects cm)

theorem alookup_lt_counter {α : Type} (l : List (Nat × α)) (n : Nat)
    (h : ∀ p ∈ l, p.1 < n) : alookup l n = none := by
  induction l with
  | nil => rfl
  | cons p rest ih =>
    obtain ⟨k, v⟩ := p
    have hk : k < n := h (k, v) (List.mem_cons_self _ _)
    have : ¬ n = k := fun he => absurd hk (by omega)
    simp only [alookup, if_neg this]
    exact ih (fun q hq => h q (List.mem_cons_of_mem _ hq))

theorem alookup_filter_self {α : Type} (l : List (Nat × α)) (id : Nat) :
    alookup (l.filter (fun p => p.1 != id)) id = none := by
  induction l with
  | nil => rfl
  | cons p rest ih =>
    obtain ⟨k, v⟩ := p
    by_cases h : k = id
    · simp [List.filter_cons, h, ih]
    · have hb : (k != id) = true := bne_iff_ne.mpr h
      have : ¬ id = k := fun he => h he.symm
      simp [List.filter_cons, hb, alookup, this, ih]

/-- C8: registering a context menu issues a fresh handle never in use (and
the counter keeps every issued handle unique); unregistering a registered
handle erases its entry and returns, in that one atomic step, the host
menu object together with every dependent target for release — afterwards
the handle resolves to nothing; and unregistering a never-issued handle,
or unregistering the same handle a second time, returns `false` and
changes nothing rather than silently succeeding. -/
theorem context_menu_registry_atomic (st : MenuRegistry) (menu id q : Nat)
    (cm : ContextMenu) (hwf : MenuRegistryWF st)
    (hid : alookup st.context_menus id = some cm)
    (hq : alookup st.context_menus q = none) :
    alookup st.context_menus (register_context_menu st menu).1 = none ∧
    alookup (register_context_menu st menu).2.context_menus
        (register_context_menu st menu).1 = some ⟨menu, []⟩ ∧
    MenuRegistryWF (register_context_menu st menu).2 ∧
    unregister_context_menu st id
      = (true,
         ⟨st.context_menus.filter (fun p => p.1 != id),
          st.current_context_menu_id⟩,
         releasedObjects cm) ∧
    alookup (unregister_context_menu st id).2.1.context_menus id = none ∧
    (unregister_context_menu (unregister_context_menu st id).2.1 id).1 = false ∧
    unregister_context_menu st q = (false, st, []) := by
  have hfresh : alookup st.context_menus st.current_context_menu_id = none :=
    alookup_lt_counter _ _ hwf
  refine ⟨hfresh, ?_, ?_, ?_, ?_, ?_, ?_⟩
  · simp [register_context_menu, alookup]
  · intro p hp
    simp only [register_context_menu] at hp ⊢
    rcases List.mem_cons.mp hp with h | h
    · rw [h]; omega
    · have := hwf p h; omega
  · simp [unregister_context_menu, hid]
  · simp [unregister_context_menu, hid, alookup_filter_self]
  · simp [unregister_context_menu, hid, alookup_filter_self,
      unregister_context_menu]
  · simp [unregister_context_menu, hq]

theorem context_menu_registry_atomic_witness :
    alookup (⟨[(0, ⟨100, [(1, 201), (2, 202)]⟩)], 1⟩ : MenuRegistry).context_menus
        (register_context_menu ⟨[(0, ⟨100, [(1, 201), (2, 202)]⟩)], 1⟩ 300).1
      = none ∧
    alookup (register_context_menu
          ⟨[(0, ⟨100, [(1, 201), (2, 202)]⟩)], 1⟩ 300).2.context_menus
        (register_context_menu ⟨[(0, ⟨100, [(1, 201), (2, 202)]⟩)], 1⟩ 300).1
      = some ⟨300, []⟩ ∧
    MenuRegistryWF
      (register_context_menu ⟨[(0, ⟨100, [(1, 201), (2, 202)]⟩)], 1⟩ 300).2 ∧
    unregister_context_menu ⟨[(0, ⟨100, [(1, 201), (2, 202)]⟩)], 1⟩ 0
      = (true, ⟨[], 1⟩, [100, 201, 202]) ∧
    alookup (unregister_context_menu
          ⟨[(0, ⟨100, [(1, 201), (2, 202)]⟩)], 1⟩ 0).2.1.context_menus 0
      = none ∧
    (unregister_context_menu
        (unregister_context_menu
          ⟨[(0, ⟨100, [(1, 201), (2, 202)]⟩)], 1⟩ 0).2.1 0).1 = false ∧
    unregister_context_menu ⟨[(0, ⟨100, [(1, 201), (2, 202)]⟩)], 1⟩ 5
      = (false, ⟨[(0, ⟨100, [(1, 201), (2, 202)]⟩)], 1⟩, []) :=
  context_menu_registry_atomic ⟨[(0, ⟨100, [(1, 201), (2, 202)]⟩)], 1⟩ 300 0 5
    ⟨100, [(1, 201), (2, 202)]⟩ (by decide) (by decide) (by decide)

/-- The five per-category sockets declared by `Vst2Bridge` (vst2.h lines
220-234), in declaration order: the main-thread dispatcher socket, the
dedicated `effProcessEvents` MIDI-event socket, the host-callback socket,
the `getParameter`/`setParameter` socket and the
`processReplacing` audio socket. -/
inductive Vst2BridgeSocket
  | host_vst_dispatch
  | host_vst_dispatch_midi_events
  | vst_host_callback
  | host_vst_parameters
  | host_vst_process_replacing
deriving DecidableEq, Fintype

/-- The socket list of one `Vst2Bridge` instance. -/
def vst2_bridge_sockets : List Vst2BridgeSocket :=
  [.host_vst_dispatch, .host_vst_dispatch_midi_events, .vst_host_callback,
   .host_vst_parameters, .host_vst_process_replacing]

/-- C7 counterexample: the `Vst2Bridge` transport declares five logical
channels, not four — beside the main-thread dispatcher, MIDI-event
dispatch, host-callback and audio-process sockets there is a fifth,
dedicated parameter socket — so the claimed count of exactly four is
false on the code. -/
theorem vst2_transport_not_four_channels :
    vst2_bridge_sockets.length = 5 ∧ ¬ vst2_bridge_sockets.length = 4 := by
  constructor
  · rfl
  · intro h
    simp [vst2_bridge_sockets] at h

/-- The state of one synchronous call channel: idle, or holding exactly
one outstanding request. -/
inductive ChanState
  | idle
  | awaiting (reqId : Nat)
deriving DecidableEq

/-- The observable channel events: issuing a request, receiving a
response; each carries the identity of the call it belongs to. -/
inductive ChanEvent
  | request (reqId : Nat)
  | response (reqId : Nat)
deriving DecidableEq

/-- Modelled from the spec: one step of a strict synchronous
request/response channel (the socket transport in common/communication.h
is not among the provided sources).  A request is accepted only when the
channel is idle; a response is accepted only when it answers the one
outstanding request; everything else is a protocol violation. -/
def chanStep : ChanState → ChanEvent → Option ChanState
  | .idle, .request i => some (.awaiting i)
  | .idle, .response _ => none
  | .awaiting _, .request _ => none
  | .awaiting i, .response j => if j = i then some ChanState.idle else none

/-- The number of outstanding requests of a channel. -/
def outstanding : ChanState → Nat
  | .idle => 0
  | .awaiting _ => 1

/-- The joint state of the five independent channels. -/
def Vst2SysState := Vst2BridgeSocket → ChanState

/-- One step of the five-channel system: the event is handled by exactly
the channel it belongs to, the others are untouched. -/
def vst2SysStep (sys : Vst2SysState) (c : Vst2BridgeSocket) (e : ChanEvent) :
    Option Vst2SysState :=
  match chanStep (sys c) e with
  | none => none
  | some s => some (fun d => if d = c then s else sys d)

/-- C7 amended: the call transport consists of exactly five independent
logical channels — main-thread dispatcher calls, MIDI-event dispatch,
host-callback calls, parameter calls and audio-process calls — each a
strict synchronous request/response pair with no pipelining: a channel
holds at most one outstanding request, a second request is refused while
one is outstanding, only the response paired with the outstanding request
completes it (a mismatched response is refused, so one channel never
answers with the response of another channel), and an accepted step on one
channel leaves the state of every other channel untouched. -/
theorem vst2_transport_five_strict_channels (s : ChanState) (i j : Nat)
    (sys sys' : Vst2SysState) (c d : Vst2BridgeSocket) (e : ChanEvent)
    (hij : ¬ j = i) (hstep : vst2SysStep sys c e = some sys') (hdc : ¬ d = c) :
    vst2_bridge_sockets.length = 5 ∧
    vst2_bridge_sockets.Nodup ∧
    Fintype.card Vst2BridgeSocket = 5 ∧
    outstanding s ≤ 1 ∧
    chanStep (.awaiting i) (.request j) = none ∧
    chanStep (.awaiting i) (.response i) = some ChanState.idle ∧
    chanStep (.awaiting i) (.response j) = none ∧
    sys' d = sys d := by
  refine ⟨rfl, by decide, rfl, ?_, rfl, ?_, ?_, ?_⟩
  · cases s <;> simp [outstanding]
  · simp [chanStep]
  · simp [chanStep, hij]
  · unfold vst2SysStep at hstep
    cases hc : chanStep (sys c) e with
    | none => rw [hc] at hstep; exact absurd hstep (by simp)
    | some st =>
      rw [hc] at hstep
      have := (Option.some.injEq _ _).mp hstep
      rw [← this]
      simp [hdc]

theorem vst2_transport_five_strict_channels_witness :
    vst2_bridge_sockets.length = 5 ∧
    vst2_bridge_sockets.Nodup ∧
    Fintype.card Vst2BridgeSocket = 5 ∧
    outstanding ChanState.idle ≤ 1 ∧
    chanStep (.awaiting 0) (.request 1) = none ∧
    chanStep (.awaiting 0) (.response 0) = some ChanState.idle ∧
    chanStep (.awaiting 0) (.response 1) = none ∧
    (if Vst2BridgeSocket.vst_host_callback = Vst2BridgeSocket.host_vst_dispatch
      then ChanState.awaiting 7 else ChanState.idle) = ChanState.idle :=
  vst2_transport_five_strict_channels ChanState.idle 0 1
    (fun _ => ChanState.idle)
    (fun d => if d = Vst2BridgeSocket.host_vst_dispatch
      then ChanState.awaiting 7 else ChanState.idle)
    Vst2BridgeSocket.host_vst_dispatch Vst2BridgeSocket.vst_host_callback
    (.request 7) (by decide) rfl (by decide)
